import Mathlib

/-!
Verification of the data-encoding core of the `fast_qr` repository.

The definitions below are a shallow embedding of `src/encode.rs`,
`src/hardcode/mod.rs` and `src/module.rs`.  Machine integers (`usize`,
`u8`, `u32`) are embedded as `Nat`; wherever the Rust code can overflow
or underflow, the arithmetic is taken modulo the word size explicitly
(release-mode wrapping semantics).  The repository's `bitstring.rs`,
`version.rs` and the `ECL` declaration are not part of the provided
sources; they are modelled from the specification and marked as such.
-/

set_option maxRecDepth 8000

namespace FastQR

/-- Modelled from the spec: the four error-correction levels L/M/Q/H
(`ECL` is declared outside the provided sources). -/
inductive ECL
  | L
  | M
  | Q
  | H
deriving DecidableEq, Fintype, Repr

/-- The three encoding modes, from `src/encode.rs` (`pub enum Mode`). -/
inductive Mode
  | Numeric
  | Alphanumeric
  | Byte
deriving DecidableEq, Fintype, Repr

/-- Modelled from the spec: the `Version` enum `V01 ..= V40`; the source
casts it with `version as usize` to a 0-based index, so a version is
embedded as its 0-based index (`V01 = 0`, …, `V40 = 39`). -/
abbrev Version := Fin 40

/-- The modulus of `usize` arithmetic (64-bit target). -/
def USIZE : Nat := 2 ^ 64

/-! ## Bit-buffer primitive, modelled from the spec (§6)

`bitstring.rs` is not under the provided sources.  The spec describes it
as an abstract append-only bit sequence supporting: append one bit,
append the low N bits of an unsigned integer most-significant-bit first,
append a full byte MSB-first, append an explicit bit slice, and query
the current length.  It is modelled as a `List Bool`; the hard capacity
ceiling (23648 bits) is never reached by any stream considered here, so
the list is left unbounded. -/

/-- Modelled from the spec: the low `n` bits of `v`, most significant first. -/
def natToBitsBE : Nat → Nat → List Bool
  | 0, _ => []
  | n + 1, v => natToBitsBE n (v / 2) ++ [v % 2 == 1]

/-- Modelled from the spec: append a single bit. -/
def push (bs : List Bool) (b : Bool) : List Bool := bs ++ [b]

/-- Modelled from the spec: append the low `n` bits of `v`, MSB first. -/
def push_bits (bs : List Bool) (v : Nat) (n : Nat) : List Bool :=
  bs ++ natToBitsBE n v

/-- Modelled from the spec: append a full byte, MSB first. -/
def push_u8 (bs : List Bool) (v : Nat) : List Bool :=
  bs ++ natToBitsBE 8 v

/-- Modelled from the spec: append an explicit sequence of bits. -/
def push_slice (bs : List Bool) (l : List Bool) : List Bool := bs ++ l

/-! ## Character classification and value maps (`src/encode.rs`) -/

/-- Embedding of `u8::is_ascii_digit`: `b'0' ..= b'9'`. -/
def is_ascii_digit (c : Nat) : Bool :=
  decide (48 ≤ c ∧ c ≤ 57)

/-- Embedding of `is_qr_alphanumeric` from `src/encode.rs`: ASCII ranges
`A-Z`, `a-z`, `0-9`, and the characters space `$ % * + - . / :`. -/
def is_qr_alphanumeric (c : Nat) : Bool :=
  decide ((65 ≤ c ∧ c ≤ 90) ∨ (97 ≤ c ∧ c ≤ 122) ∨ (48 ≤ c ∧ c ≤ 57) ∨
    c = 32 ∨ c = 36 ∨ c = 37 ∨ c = 42 ∨ c = 43 ∨ c = 45 ∨ c = 46 ∨ c = 47 ∨ c = 58)

/-- Embedding of `ascii_to_digit` from `src/encode.rs`: `(c - b'0') as usize` with
`u8` wrapping subtraction. -/
def ascii_to_digit (c : Nat) : Nat := (c + 256 - 48) % 256

/-- Embedding of `ascii_to_alphanumeric` from `src/encode.rs`.  The source is a
`match` over byte literals; digits map to 0–9, letters (either case) to
10–35, then space `$ % * + - . / :` to 36–44, and every other byte to
`usize::MAX` (the `_ => usize::MAX` arm, commented `unreachable!()`). -/
def ascii_to_alphanumeric (c : Nat) : Nat :=
  if c = 48 then 0 else if c = 49 then 1 else if c = 50 then 2
  else if c = 51 then 3 else if c = 52 then 4 else if c = 53 then 5
  else if c = 54 then 6 else if c = 55 then 7 else if c = 56 then 8
  else if c = 57 then 9
  else if c = 65 ∨ c = 97 then 10 else if c = 66 ∨ c = 98 then 11
  else if c = 67 ∨ c = 99 then 12 else if c = 68 ∨ c = 100 then 13
  else if c = 69 ∨ c = 101 then 14 else if c = 70 ∨ c = 102 then 15
  else if c = 71 ∨ c = 103 then 16 else if c = 72 ∨ c = 104 then 17
  else if c = 73 ∨ c = 105 then 18 else if c = 74 ∨ c = 106 then 19
  else if c = 75 ∨ c = 107 then 20 else if c = 76 ∨ c = 108 then 21
  else if c = 77 ∨ c = 109 then 22 else if c = 78 ∨ c = 110 then 23
  else if c = 79 ∨ c = 111 then 24 else if c = 80 ∨ c = 112 then 25
  else if c = 81 ∨ c = 113 then 26 else if c = 82 ∨ c = 114 then 27
  else if c = 83 ∨ c = 115 then 28 else if c = 84 ∨ c = 116 then 29
  else if c = 85 ∨ c = 117 then 30 else if c = 86 ∨ c = 118 then 31
  else if c = 87 ∨ c = 119 then 32 else if c = 88 ∨ c = 120 then 33
  else if c = 89 ∨ c = 121 then 34 else if c = 90 ∨ c = 122 then 35
  else if c = 32 then 36 else if c = 36 then 37 else if c = 37 then 38
  else if c = 42 then 39 else if c = 43 then 40 else if c = 45 then 41
  else if c = 46 then 42 else if c = 47 then 43 else if c = 58 then 44
  else USIZE - 1

/-! ## Mode classifier (`best_encoding`, `src/encode.rs`)

The source scans with an index `i` in a loop; the loops are embedded as
structural recursion on the remaining suffix of the input. -/

/-- Inner helper `try_encode_alphanumeric` of `best_encoding`. -/
def try_encode_alphanumeric : List Nat → Mode
  | [] => Mode.Alphanumeric
  | c :: rest =>
      if is_qr_alphanumeric c then try_encode_alphanumeric rest else Mode.Byte

/-- Inner helper `try_encode_numeric` of `best_encoding`; on the first
non-digit it restarts the alphanumeric scan at that byte. -/
def try_encode_numeric : List Nat → Mode
  | [] => Mode.Numeric
  | c :: rest =>
      if is_ascii_digit c then try_encode_numeric rest
      else try_encode_alphanumeric (c :: rest)

/-- Embedding of `best_encoding` from `src/encode.rs`. -/
def best_encoding (input : List Nat) : Mode := try_encode_numeric input

/-! ## Mode encoders (`src/encode.rs`) -/

/-- Inner helper `encode_number` of `encode_numeric`: the bit width is
chosen by the *value* ranges `0..=9`, `10..=99`, `_`. -/
def encode_number (bs : List Bool) (number : Nat) : List Bool :=
  if number ≤ 9 then push_bits bs number 4
  else if number ≤ 99 then push_bits bs number 7
  else push_bits bs number 10

/-- The grouping loops of `encode_numeric`: full groups of 3 digits,
then a remainder of 2 or 1 digits folded into one number. -/
def numericChunks : List Nat → List Bool → List Bool
  | d1 :: d2 :: d3 :: rest, bs =>
      numericChunks rest
        (encode_number bs
          (ascii_to_digit d1 * 100 + ascii_to_digit d2 * 10 + ascii_to_digit d3))
  | [d1, d2], bs => encode_number bs (ascii_to_digit d1 * 10 + ascii_to_digit d2)
  | [d1], bs => encode_number bs (ascii_to_digit d1)
  | [], bs => bs

/-- Embedding of `encode_numeric` from `src/encode.rs`: mode indicator `0001`, the
input length in `cci` bits, then the digit groups. -/
def encode_numeric (input : List Nat) (cci : Nat) : Option (List Bool) :=
  let bs : List Bool := []
  let bs := push_slice bs [false, false, false, true]
  let bs := push_bits bs input.length cci
  some (numericChunks input bs)

/-- The pairing loop of `encode_alphanumeric`: pairs at 11 bits each
(`usize` multiplication wraps), a trailing single character at 6 bits. -/
def alphanumericChunks : List Nat → List Bool → List Bool
  | c1 :: c2 :: rest, bs =>
      alphanumericChunks rest
        (push_bits bs
          ((ascii_to_alphanumeric c1 * 45 + ascii_to_alphanumeric c2) % USIZE) 11)
  | [c1], bs => push_bits bs (ascii_to_alphanumeric c1) 6
  | [], bs => bs

/-- Embedding of `encode_alphanumeric` from `src/encode.rs`: mode indicator `0010`,
the input length in `cci` bits, then the character pairs. -/
def encode_alphanumeric (input : List Nat) (cci : Nat) : Option (List Bool) :=
  let bs : List Bool := []
  let bs := push_slice bs [false, false, true, false]
  let bs := push_bits bs input.length cci
  some (alphanumericChunks input bs)

/-- The byte loop of `encode_byte`. -/
def byteChunks : List Nat → List Bool → List Bool
  | c :: rest, bs => byteChunks rest (push_u8 bs c)
  | [], bs => bs

/-- Embedding of `encode_byte` from `src/encode.rs`: mode indicator `0100`, the
input length in `cci` bits, then each byte verbatim. -/
def encode_byte (input : List Nat) (cci : Nat) : Option (List Bool) :=
  let bs : List Bool := []
  let bs := push_slice bs [false, true, false, false]
  let bs := push_bits bs input.length cci
  some (byteChunks input bs)

/-! ## Stream finalizer (`src/encode.rs`) -/

/-- Embedding of `add_terminator` from `src/encode.rs`.  The source computes
`let mut i = bs.len() - data_bits;` — a `usize` subtraction in this
operand order, embedded with wrapping semantics — clamps `i` to 4 and
pushes `i` zero bits. -/
def add_terminator (bs : List Bool) (dataBits : Nat) : List Bool :=
  let i := (bs.length + USIZE - dataBits) % USIZE
  let i := if i > 4 then 4 else i
  bs ++ List.replicate i false

/-- Embedding of `pad_to_8` from `src/encode.rs`: push `(8 - bs.len() % 8) % 8`
zero bits. -/
def pad_to_8 (bs : List Bool) : List Bool :=
  bs ++ List.replicate ((8 - bs.length % 8) % 8) false

/-- The `pad_bytes` array of `fill`: `[0b11101100, 0b00010001]`. -/
def pad_bytes : List Nat := [236, 17]

/-- The `while bs.len() < data_bits` loop of `fill`, embedded with a
fuel argument.  Each iteration appends 8 bits, so `dataBits` units of
fuel always suffice for the loop to reach its exit condition. -/
def fillAux : Nat → List Bool → Nat → Bool → List Bool
  | 0, bs, _, _ => bs
  | fuel + 1, bs, dataBits, byte =>
      if bs.length < dataBits then
        fillAux fuel (push_u8 bs (pad_bytes.getD (if byte then 1 else 0) 0))
          dataBits (!byte)
      else bs

/-- Embedding of `fill` from `src/encode.rs`: append the alternating pad bytes
`0xEC`, `0x11` (starting with `0xEC`) while the length is below the
budget. -/
def fill (bs : List Bool) (dataBits : Nat) : List Bool :=
  fillAux dataBits bs dataBits false

/-! ## Structural tables (`src/hardcode/mod.rs`) -/

/-- One packed `u32` entry of the group tables:
`(a << 24) | (b << 16) | (c << 8) | d`. -/
def packGroups (a b c d : Nat) : Nat :=
  (a <<< 24) ||| (b <<< 16) ||| (c <<< 8) ||| d

/-- The `L` array inside `ecc_to_groups`. -/
def groupsL : List Nat := [
  packGroups 1 19 0 0, packGroups 1 34 0 0, packGroups 1 55 0 0,
  packGroups 1 80 0 0, packGroups 1 108 0 0, packGroups 2 68 0 0,
  packGroups 2 78 0 0, packGroups 2 97 0 0, packGroups 2 116 0 0,
  packGroups 2 68 2 69, packGroups 4 81 0 0, packGroups 2 92 2 93,
  packGroups 4 107 0 0, packGroups 3 115 1 116, packGroups 5 87 1 88,
  packGroups 5 98 1 99, packGroups 1 107 5 108, packGroups 5 120 1 121,
  packGroups 3 113 4 114, packGroups 3 107 5 108, packGroups 4 116 4 117,
  packGroups 2 111 7 112, packGroups 4 121 5 122, packGroups 6 117 4 118,
  packGroups 8 106 4 107, packGroups 10 114 2 115, packGroups 8 122 4 123,
  packGroups 3 117 10 118, packGroups 7 116 7 117, packGroups 5 115 10 116,
  packGroups 13 115 3 116, packGroups 17 115 0 0, packGroups 17 115 1 116,
  packGroups 13 115 6 116, packGroups 12 121 7 122, packGroups 6 121 14 122,
  packGroups 17 122 4 123, packGroups 4 122 18 123, packGroups 20 117 4 118,
  packGroups 19 118 6 119]

/-- The `M` array inside `ecc_to_groups`. -/
def groupsM : List Nat := [
  packGroups 1 16 0 0, packGroups 1 28 0 0, packGroups 1 44 0 0,
  packGroups 2 32 0 0, packGroups 2 43 0 0, packGroups 4 27 0 0,
  packGroups 4 31 0 0, packGroups 2 38 2 39, packGroups 3 36 2 37,
  packGroups 4 43 1 44, packGroups 1 50 4 51, packGroups 6 36 2 37,
  packGroups 8 37 1 38, packGroups 4 40 5 41, packGroups 5 41 5 42,
  packGroups 7 45 3 46, packGroups 10 46 1 47, packGroups 9 43 4 44,
  packGroups 3 44 11 45, packGroups 3 41 13 42, packGroups 17 42 0 0,
  packGroups 17 46 0 0, packGroups 4 47 14 48, packGroups 6 45 14 46,
  packGroups 8 47 13 48, packGroups 19 46 4 47, packGroups 22 45 3 46,
  packGroups 3 45 23 46, packGroups 21 45 7 46, packGroups 19 47 10 48,
  packGroups 2 46 29 47, packGroups 10 46 23 47, packGroups 14 46 21 47,
  packGroups 14 46 23 47, packGroups 12 47 26 48, packGroups 6 47 34 48,
  packGroups 29 46 14 47, packGroups 13 46 32 47, packGroups 40 47 7 48,
  packGroups 18 47 31 48]

/-- The `Q` array inside `ecc_to_groups`. -/
def groupsQ : List Nat := [
  packGroups 1 13 0 0, packGroups 1 22 0 0, packGroups 2 17 0 0,
  packGroups 2 24 0 0, packGroups 2 15 2 16, packGroups 4 19 0 0,
  packGroups 2 14 4 15, packGroups 4 18 2 19, packGroups 4 16 4 17,
  packGroups 6 19 2 20, packGroups 4 22 4 23, packGroups 4 20 6 21,
  packGroups 8 20 4 21, packGroups 11 16 5 17, packGroups 5 24 7 25,
  packGroups 15 19 2 20, packGroups 1 22 15 23, packGroups 17 22 1 23,
  packGroups 17 21 4 22, packGroups 15 24 5 25, packGroups 17 22 6 23,
  packGroups 7 24 16 25, packGroups 11 24 14 25, packGroups 11 24 16 25,
  packGroups 7 24 22 25, packGroups 28 22 6 23, packGroups 8 23 26 24,
  packGroups 4 24 31 25, packGroups 1 23 37 24, packGroups 15 24 25 25,
  packGroups 42 24 1 25, packGroups 10 24 35 25, packGroups 29 24 19 25,
  packGroups 44 24 7 25, packGroups 39 24 14 25, packGroups 46 24 10 25,
  packGroups 49 24 10 25, packGroups 48 24 14 25, packGroups 43 24 22 25,
  packGroups 34 24 34 25]

/-- The `H` array inside `ecc_to_groups`. -/
def groupsH : List Nat := [
  packGroups 1 9 0 0, packGroups 1 16 0 0, packGroups 2 13 0 0,
  packGroups 4 9 0 0, packGroups 2 11 2 12, packGroups 4 15 0 0,
  packGroups 4 13 1 14, packGroups 4 14 2 15, packGroups 4 12 4 13,
  packGroups 6 15 2 16, packGroups 3 12 8 13, packGroups 7 14 4 15,
  packGroups 12 11 4 12, packGroups 11 12 5 13, packGroups 11 12 7 13,
  packGroups 3 15 13 16, packGroups 2 14 17 15, packGroups 2 14 19 15,
  packGroups 9 13 16 14, packGroups 15 15 10 16, packGroups 19 16 6 17,
  packGroups 34 13 0 0, packGroups 16 15 14 16, packGroups 30 16 2 17,
  packGroups 22 15 13 16, packGroups 33 16 4 17, packGroups 12 15 28 16,
  packGroups 11 15 31 16, packGroups 19 15 26 16, packGroups 23 15 25 16,
  packGroups 23 15 28 16, packGroups 19 15 35 16, packGroups 11 15 46 16,
  packGroups 59 16 1 17, packGroups 22 15 41 16, packGroups 2 15 64 16,
  packGroups 24 15 46 16, packGroups 42 15 32 16, packGroups 10 15 67 16,
  packGroups 20 15 61 16]

/-- Embedding of `ecc_to_groups` from `src/hardcode/mod.rs`: select the packed entry
for `(quality, version)` and unpack the two
`(block count, per-block size)` pairs with shifts and `0xFF` masks. -/
def ecc_to_groups (quality : ECL) (version : Version) : (Nat × Nat) × (Nat × Nat) :=
  let ecgroups :=
    match quality with
    | ECL.L => groupsL.getD version.val 0
    | ECL.M => groupsM.getD version.val 0
    | ECL.Q => groupsQ.getD version.val 0
    | ECL.H => groupsH.getD version.val 0
  (((ecgroups >>> 24) &&& 0xFF, (ecgroups >>> 16) &&& 0xFF),
   ((ecgroups >>> 8) &&& 0xFF, ecgroups &&& 0xFF))

/-- Embedding of `data_codewords` from `src/hardcode/mod.rs` (the four `u16` arrays
of 40 entries). -/
def data_codewords (version : Version) (ecl : ECL) : Nat :=
  let L : List Nat := [
    19, 34, 55, 80, 108, 136, 156, 194, 232, 274, 324, 370, 428, 461, 523, 589,
    647, 721, 795, 861, 932, 1006, 1094, 1174, 1276, 1370, 1468, 1531, 1631,
    1735, 1843, 1955, 2071, 2191, 2306, 2434, 2566, 2702, 2812, 2956]
  let M : List Nat := [
    16, 28, 44, 64, 86, 108, 124, 154, 182, 216, 254, 290, 334, 365, 415, 453,
    507, 563, 627, 669, 714, 782, 860, 914, 1000, 1062, 1128, 1193, 1267, 1373,
    1455, 1541, 1631, 1725, 1812, 1914, 1992, 2102, 2216, 2334]
  let Q : List Nat := [
    13, 22, 34, 48, 62, 76, 88, 110, 132, 154, 180, 206, 244, 261, 295, 325,
    367, 397, 445, 485, 512, 568, 614, 664, 718, 754, 808, 871, 911, 985, 1033,
    1115, 1171, 1231, 1286, 1354, 1426, 1502, 1582, 1666]
  let H : List Nat := [
    9, 16, 26, 36, 46, 60, 66, 86, 100, 122, 140, 158, 180, 197, 223, 253, 283,
    313, 341, 385, 406, 442, 464, 514, 538, 596, 628, 661, 701, 745, 793, 845,
    901, 961, 986, 1054, 1096, 1142, 1222, 1276]
  match ecl with
  | ECL.L => L.getD version.val 0
  | ECL.M => M.getD version.val 0
  | ECL.Q => Q.getD version.val 0
  | ECL.H => H.getD version.val 0

/-- Embedding of `data_bits` from `src/hardcode/mod.rs`: `data_codewords * 8`. -/
def data_bits (version : Version) (ecl : ECL) : Nat :=
  data_codewords version ecl * 8

/-- Embedding of `cci_bits` from `src/hardcode/mod.rs`.  The source compares
`version as usize` against `V27 as usize` (= 26) and `V10 as usize`
(= 9). -/
def cci_bits (version : Version) (mode : Mode) : Nat :=
  match mode with
  | Mode.Numeric =>
      if 26 ≤ version.val then 14 else if 9 ≤ version.val then 12 else 10
  | Mode.Alphanumeric =>
      if 26 ≤ version.val then 13 else if 9 ≤ version.val then 11 else 9
  | Mode.Byte =>
      if 9 ≤ version.val then 16 else 8

/-! ### Generator polynomials (`get_polynomial`, `src/hardcode/mod.rs`)

The source is one `match (version, ecl)` whose arms share thirteen
literal coefficient slices; each slice is named here after its length.
Versions appear as their 0-based indices (`V01 = 0`). -/

/-- Coefficients of the `(V01, L)` arm. -/
def poly8 : List Nat := [0, 87, 229, 146, 149, 238, 102, 21]

/-- Coefficients of the `(V01, M) | (V02, L)` arm. -/
def poly11 : List Nat := [0, 251, 67, 46, 61, 118, 70, 64, 94, 32, 45]

/-- Coefficients of the `(V01, Q)` arm. -/
def poly14 : List Nat :=
  [0, 74, 152, 176, 100, 86, 100, 106, 104, 130, 218, 206, 140, 78]

/-- Coefficients of the `(V03, L)` arm. -/
def poly16 : List Nat :=
  [0, 8, 183, 61, 91, 202, 37, 51, 58, 58, 237, 140, 124, 5, 99, 105]

/-- Coefficients of the `(V02, M) | (V04, H) | (V06, M)` arm. -/
def poly17 : List Nat :=
  [0, 120, 104, 107, 109, 102, 161, 76, 3, 91, 191, 147, 169, 182, 194, 225,
   120]

/-- Coefficients of the `(V01, H)` arm. -/
def poly18 : List Nat :=
  [0, 43, 139, 206, 78, 43, 239, 123, 206, 214, 147, 24, 99, 150, 39, 243,
   163, 136]

/-- Coefficients of the 19-codeword arm (`(V03, Q) | ... | (V10, L)`). -/
def poly19 : List Nat :=
  [0, 215, 234, 158, 94, 184, 97, 118, 170, 79, 187, 152, 148, 252, 179, 5,
   98, 96, 153]

/-- Coefficients of the 21-codeword arm (`(V04, L) | ... | (V14, Q)`). -/
def poly21 : List Nat :=
  [0, 17, 60, 79, 50, 61, 163, 26, 187, 202, 180, 221, 225, 83, 239, 156, 164,
   212, 212, 188, 190]

/-- Coefficients of the 23-codeword arm (`(V02, Q) | ... | (V15, L)`). -/
def poly23 : List Nat :=
  [0, 210, 171, 247, 242, 93, 230, 14, 109, 221, 53, 200, 74, 8, 172, 98, 80,
   219, 134, 160, 105, 165, 231]

/-- Coefficients of the 25-codeword arm (`(V05, M) | ... | (V22, H)`). -/
def poly25 : List Nat :=
  [0, 229, 121, 135, 48, 211, 117, 251, 126, 159, 180, 169, 152, 192, 226,
   228, 218, 111, 0, 117, 232, 87, 96, 227, 21]

/-- Coefficients of the 27-codeword arm (`(V03, M) | ... | (V25, L)`). -/
def poly27 : List Nat :=
  [0, 173, 125, 158, 2, 103, 182, 118, 17, 145, 201, 111, 28, 165, 53, 161,
   21, 245, 142, 13, 102, 48, 227, 153, 145, 218, 70]

/-- Coefficients of the 29-codeword arm (`(V02, H) | ... | (V40, M)`). -/
def poly29 : List Nat :=
  [0, 168, 223, 200, 104, 224, 234, 108, 180, 110, 190, 195, 147, 205, 27,
   232, 201, 21, 43, 245, 87, 42, 195, 212, 119, 242, 37, 9, 123]

/-- Coefficients of the final arm (`(V09, L) | ... | (V40, H)`). -/
def poly31 : List Nat :=
  [0, 41, 173, 145, 152, 216, 31, 179, 182, 50, 48, 110, 86, 239, 96, 222,
   125, 42, 173, 226, 193, 224, 130, 156, 37, 251, 216, 238, 40, 192, 180]

/-- Embedding of `get_polynomial` from `src/hardcode/mod.rs`.  The final source arm
lists the remaining 60 `(version, ecl)` pairs explicitly; as every pair
outside the earlier arms belongs to it, it is embedded as the catch-all
case. -/
def get_polynomial (version : Version) (ecl : ECL) : List Nat :=
  match version.val, ecl with
  | 0, ECL.L => poly8
  | 0, ECL.M | 1, ECL.L => poly11
  | 0, ECL.Q => poly14
  | 2, ECL.L => poly16
  | 1, ECL.M | 3, ECL.H | 5, ECL.M => poly17
  | 0, ECL.H => poly18
  | 2, ECL.Q | 3, ECL.M | 4, ECL.Q | 5, ECL.L | 6, ECL.M | 6, ECL.Q
  | 9, ECL.L => poly19
  | 3, ECL.L | 6, ECL.L | 8, ECL.Q | 10, ECL.L | 13, ECL.Q => poly21
  | 1, ECL.Q | 2, ECL.H | 4, ECL.H | 7, ECL.M | 7, ECL.Q | 8, ECL.M
  | 11, ECL.M | 12, ECL.M | 12, ECL.H | 14, ECL.L => poly23
  | 4, ECL.M | 5, ECL.Q | 7, ECL.L | 8, ECL.H | 9, ECL.Q | 10, ECL.H
  | 11, ECL.L | 12, ECL.Q | 13, ECL.M | 13, ECL.H | 14, ECL.M | 14, ECL.H
  | 15, ECL.L | 15, ECL.Q | 21, ECL.H => poly25
  | 2, ECL.M | 3, ECL.Q | 4, ECL.L | 6, ECL.H | 7, ECL.H | 9, ECL.M
  | 11, ECL.Q | 12, ECL.L | 17, ECL.M | 18, ECL.M | 18, ECL.Q | 18, ECL.H
  | 19, ECL.M | 20, ECL.M | 24, ECL.L => poly27
  | 1, ECL.H | 5, ECL.H | 9, ECL.H | 10, ECL.Q | 11, ECL.H | 15, ECL.M
  | 16, ECL.L | 16, ECL.M | 16, ECL.Q | 16, ECL.H | 17, ECL.Q | 17, ECL.H
  | 18, ECL.L | 19, ECL.L | 19, ECL.H | 20, ECL.L | 20, ECL.Q | 21, ECL.L
  | 21, ECL.M | 22, ECL.M | 23, ECL.M | 24, ECL.M | 25, ECL.L | 25, ECL.M
  | 25, ECL.Q | 26, ECL.M | 27, ECL.M | 28, ECL.M | 29, ECL.M | 30, ECL.M
  | 31, ECL.M | 32, ECL.M | 33, ECL.M | 34, ECL.M | 35, ECL.M | 36, ECL.M
  | 37, ECL.M | 38, ECL.M | 39, ECL.M => poly29
  | _, _ => poly31

/-! ## Module model (`src/module.rs`) -/

/-- Embedding of `ModuleType` from `src/module.rs` (the discriminants are the role
tag values `t`, stored as `t << 1` in the packed byte). -/
inductive ModuleType
  | Data
  | FinderPattern
  | Alignment
  | Timing
  | Format
  | Version
  | DarkModule
  | Empty
deriving DecidableEq, Fintype, Repr

/-- The role tag of a `ModuleType` before the `<< 1` shift
(`Data = 0`, …, `Empty = 7`). -/
def moduleTypeTag : ModuleType → Nat
  | ModuleType.Data => 0
  | ModuleType.FinderPattern => 1
  | ModuleType.Alignment => 2
  | ModuleType.Timing => 3
  | ModuleType.Format => 4
  | ModuleType.Version => 5
  | ModuleType.DarkModule => 6
  | ModuleType.Empty => 7

/-- Embedding of `From<u8> for ModuleType` from `src/module.rs`; the
`_ => unreachable!()` arm is embedded as `none`. -/
def moduleTypeFromU8 (value : Nat) : Option ModuleType :=
  match value with
  | 0 => some ModuleType.Data
  | 1 => some ModuleType.FinderPattern
  | 2 => some ModuleType.Alignment
  | 3 => some ModuleType.Timing
  | 4 => some ModuleType.Format
  | 5 => some ModuleType.Version
  | 6 => some ModuleType.DarkModule
  | 7 => some ModuleType.Empty
  | _ => none

/-- Embedding of `Module::new` from `src/module.rs`: pack a colour bit and a role
tag into one byte (`value | (module_type as u8)`). -/
def module_new (value : Bool) (moduleType : ModuleType) : Nat :=
  (if value then 1 else 0) ||| (moduleTypeTag moduleType <<< 1)

/-- Embedding of `Module::value` from `src/module.rs`: `self.0 & 1 == 1`. -/
def module_value (m : Nat) : Bool := (m &&& 1) == 1

/-- Embedding of `Module::module_type` from `src/module.rs`:
`ModuleType::from(self.0 >> 1)`. -/
def module_type (m : Nat) : Option ModuleType := moduleTypeFromU8 (m >>> 1)

/-- Embedding of `Module::set` from `src/module.rs`:
`self.0 = if value { self.0 | 1 } else { self.0 & !1 }` (`!1u8 = 254`). -/
def module_set (m : Nat) (value : Bool) : Nat :=
  if value then m ||| 1 else m &&& 254

/-- Embedding of `Module::toggle` from `src/module.rs`: `self.0 = self.0 ^ 1`. -/
def module_toggle (m : Nat) : Nat := m ^^^ 1

/-! ## Version resolver, modelled from the spec (§6)

`version.rs` (`Version::get`) is not under the provided sources. -/

/-- Modelled from the spec: the payload bit count of a mode-encoded
stream for an input of `len` characters — numeric groups of 3 digits at
10 bits with a 2-digit remainder at 7 and a 1-digit remainder at 4,
alphanumeric pairs at 11 bits with a single remainder at 6, and 8 bits
per byte. -/
def payloadBitsFor (mode : Mode) (len : Nat) : Nat :=
  match mode with
  | Mode.Numeric =>
      10 * (len / 3) + (match len % 3 with | 0 => 0 | 1 => 4 | _ => 7)
  | Mode.Alphanumeric => 11 * (len / 2) + 6 * (len % 2)
  | Mode.Byte => 8 * len

/-- Modelled from the spec: `Version::get(mode, ecl, len)` — the
smallest version whose data-bit budget for `ecl` accommodates a
mode-encoded stream of `len` characters including the 4-bit mode
indicator, the character-count indicator and the 4-bit terminator;
`none` if even version 40 cannot. -/
def VersionGet (mode : Mode) (ecl : ECL) (len : Nat) : Option Version :=
  (List.finRange 40).find? fun v =>
    4 + cci_bits v mode + payloadBitsFor mode len + 4 ≤ data_bits v ecl

/-! ## Top-level `encode` (`src/encode.rs`) -/

/-- The `match mode` dispatch inside `encode`. -/
def modeEncode (mode : Mode) (input : List Nat) (cci : Nat) : Option (List Bool) :=
  match mode with
  | Mode.Numeric => encode_numeric input cci
  | Mode.Alphanumeric => encode_alphanumeric input cci
  | Mode.Byte => encode_byte input cci

/-- Embedding of `encode` from `src/encode.rs`: resolve the version, run the mode
encoder with that version's character-count-indicator width, then
terminate, byte-align and fill to the version's data-bit budget. -/
def encode (input : List Nat) (ecl : ECL) (mode : Mode) : Option (List Bool) :=
  match VersionGet mode ecl input.length with
  | none => none
  | some version =>
      match modeEncode mode input (cci_bits version mode) with
      | none => none
      | some bs =>
          let dataBits := data_bits version ecl
          let bs := add_terminator bs dataBits
          let bs := pad_to_8 bs
          let bs := fill bs dataBits
          some bs

/-! ## A QR-rules decoder, modelled from the spec (§4.2, §8)

The repository contains no decoder; the round-trip property of the spec
is stated against a decoder that reads the 4-bit mode indicator, the
length field, and then the payload groups per the QR packing rules
(full numeric groups of 3 digits in 10 bits, remainders of 2 and 1
digits in 7 and 4 bits; width chosen by remaining character count). -/

/-- The value of a bit list read most-significant-bit first. -/
def bitsToNat (l : List Bool) : Nat :=
  l.foldl (fun acc b => 2 * acc + (if b then 1 else 0)) 0

/-- Read `n` bits from the front of a stream; fails when fewer remain. -/
def readBits (n : Nat) (l : List Bool) : Option (Nat × List Bool) :=
  if n ≤ l.length then some (bitsToNat (l.take n), l.drop n) else none

/-- Modelled from the spec: decode `count` numeric characters — 10 bits
while at least 3 remain, 7 bits for a 2-digit remainder, 4 bits for a
1-digit remainder — returning the ASCII digit bytes. -/
def decodeNumericDigits : Nat → List Bool → Option (List Nat)
  | 0, _ => some []
  | 1, l =>
      match readBits 4 l with
      | some (v, _) => if v ≤ 9 then some [48 + v] else none
      | none => none
  | 2, l =>
      match readBits 7 l with
      | some (v, _) => if v ≤ 99 then some [48 + v / 10, 48 + v % 10] else none
      | none => none
  | count + 3, l =>
      match readBits 10 l with
      | some (v, rest) =>
          if v ≤ 999 then
            match decodeNumericDigits count rest with
            | some ds => some ([48 + v / 100, 48 + v / 10 % 10, 48 + v % 10] ++ ds)
            | none => none
          else none
      | none => none

/-- Modelled from the spec: the QR-rules numeric decoder — mode
indicator `0001`, a length field of `cci` bits, then the digit groups
at count-determined widths. -/
def decode_numeric (cci : Nat) (l : List Bool) : Option (List Nat) :=
  match readBits 4 l with
  | some (m, l1) =>
      if m = 1 then
        match readBits cci l1 with
        | some (len, l2) => decodeNumericDigits len l2
        | none => none
      else none
  | none => none

/-! ## Helper lemmas -/

theorem natToBitsBE_length (n : Nat) : ∀ v, (natToBitsBE n v).length = n := by
  induction n with
  | zero => intro v; rfl
  | succ n ih => intro v; simp [natToBitsBE, ih]

theorem push_u8_length (bs : List Bool) (v : Nat) :
    (push_u8 bs v).length = bs.length + 8 := by
  simp [push_u8, natToBitsBE_length]

theorem USIZE_eq : USIZE = 18446744073709551616 := by norm_num [USIZE]

/-- Whenever at least 4 bits of budget remain (and the budget is within
the largest possible data-bit budget), the reversed wrapping subtraction
in `add_terminator` clamps to 4, so exactly 4 zero bits are appended. -/
theorem add_terminator_length (bs : List Bool) (d : Nat)
    (h : bs.length + 4 ≤ d) (hd : d ≤ 23648) :
    (add_terminator bs d).length = bs.length + 4 := by
  have hU := USIZE_eq
  unfold add_terminator
  have h1 : (bs.length + USIZE - d) % USIZE = bs.length + USIZE - d :=
    Nat.mod_eq_of_lt (by omega)
  rw [h1]
  show (bs ++ List.replicate
      (if bs.length + USIZE - d > 4 then 4 else bs.length + USIZE - d)
      false).length = bs.length + 4
  rw [if_pos (by omega)]
  simp

theorem pad_to_8_length (bs : List Bool) :
    (pad_to_8 bs).length = bs.length + (8 - bs.length % 8) % 8 := by
  simp [pad_to_8]

theorem pad_to_8_mod (bs : List Bool) : (pad_to_8 bs).length % 8 = 0 := by
  rw [pad_to_8_length]; omega

theorem fillAux_length : ∀ (fuel : Nat) (bs : List Bool) (d : Nat) (byte : Bool),
    bs.length % 8 = 0 → d % 8 = 0 → bs.length ≤ d → d ≤ bs.length + 8 * fuel →
    (fillAux fuel bs d byte).length = d := by
  intro fuel
  induction fuel with
  | zero =>
      intro bs d byte _ _ h3 h4
      simp only [fillAux]
      omega
  | succ n ih =>
      intro bs d byte h1 h2 h3 h4
      simp only [fillAux]
      by_cases h : bs.length < d
      · rw [if_pos h]
        have hl := push_u8_length bs (pad_bytes.getD (if byte then 1 else 0) 0)
        apply ih _ _ _ (by omega) h2 (by omega) (by omega)
      · rw [if_neg h]
        omega

theorem fill_length (bs : List Bool) (d : Nat)
    (h1 : bs.length % 8 = 0) (h2 : d % 8 = 0) (h3 : bs.length ≤ d) :
    (fill bs d).length = d :=
  fillAux_length d bs d false h1 h2 h3 (by omega)

theorem data_bits_le : ∀ (v : Version) (e : ECL), data_bits v e ≤ 23648 := by
  decide

theorem data_bits_mod8 (v : Version) (e : ECL) : data_bits v e % 8 = 0 := by
  simp [data_bits, Nat.mul_mod_left]

theorem modeEncode_isSome (mode : Mode) (input : List Nat) (cci : Nat) :
    (modeEncode mode input cci).isSome = true := by
  cases mode <;>
    simp [modeEncode, encode_numeric, encode_alphanumeric, encode_byte]

theorem digit_is_alphanumeric (c : Nat) (h : is_ascii_digit c = true) :
    is_qr_alphanumeric c = true := by
  simp only [is_ascii_digit, decide_eq_true_eq] at h
  simp only [is_qr_alphanumeric, decide_eq_true_eq]
  omega

theorem try_encode_alphanumeric_byte :
    ∀ l : List Nat, (∃ c, c ∈ l ∧ is_qr_alphanumeric c = false) →
      try_encode_alphanumeric l = Mode.Byte := by
  intro l
  induction l with
  | nil => rintro ⟨c, hc, _⟩; cases hc
  | cons a rest ih =>
      rintro ⟨c, hc, hbad⟩
      simp only [try_encode_alphanumeric]
      by_cases ha : is_qr_alphanumeric a
      · rw [if_pos ha]
        apply ih
        rcases List.mem_cons.mp hc with h | h
        · rw [h] at hbad; simp [ha] at hbad
        · exact ⟨c, h, hbad⟩
      · rw [if_neg ha]

theorem try_encode_numeric_byte :
    ∀ l : List Nat, (∃ c, c ∈ l ∧ is_qr_alphanumeric c = false) →
      try_encode_numeric l = Mode.Byte := by
  intro l
  induction l with
  | nil => rintro ⟨c, hc, _⟩; cases hc
  | cons a rest ih =>
      rintro ⟨c, hc, hbad⟩
      simp only [try_encode_numeric]
      by_cases ha : is_ascii_digit a
      · rw [if_pos ha]
        apply ih
        rcases List.mem_cons.mp hc with h | h
        · have := digit_is_alphanumeric a ha
          rw [h] at hbad
          simp [hbad] at this
        · exact ⟨c, h, hbad⟩
      · rw [if_neg ha]
        exact try_encode_alphanumeric_byte (a :: rest) ⟨c, hc, hbad⟩

/-! ## Claim theorems -/

/-- C1: if `encode input ecl mode` returns a stream, its length is
exactly `data_bits v ecl` for the version `v` selected by
`Version::get`, under the resolver's contract that the mode-encoded
payload plus a 4-bit terminator and byte alignment fits that budget. -/
theorem encode_length_matches_data_bits
    (input : List Nat) (ecl : ECL) (mode : Mode) (v : Version)
    (bs0 bs : List Bool)
    (hv : VersionGet mode ecl input.length = some v)
    (h0 : modeEncode mode input (cci_bits v mode) = some bs0)
    (hc : bs0.length + 4 + (8 - (bs0.length + 4) % 8) % 8 ≤ data_bits v ecl)
    (he : encode input ecl mode = some bs) :
    bs.length = data_bits v ecl := by
  have hbs :
      bs = fill (pad_to_8 (add_terminator bs0 (data_bits v ecl)))
        (data_bits v ecl) := by
    simp only [encode, hv, h0, Option.some.injEq] at he
    exact he.symm
  have h4 : bs0.length + 4 ≤ data_bits v ecl := by omega
  have ht := add_terminator_length bs0 (data_bits v ecl) h4 (data_bits_le v ecl)
  have hp : (pad_to_8 (add_terminator bs0 (data_bits v ecl))).length =
      bs0.length + 4 + (8 - (bs0.length + 4) % 8) % 8 := by
    rw [pad_to_8_length, ht]
  rw [hbs]
  exact fill_length _ _ (pad_to_8_mod _) (data_bits_mod8 v ecl) (by rw [hp]; exact hc)

/-- Witness for C1: empty input at level M, mode Byte selects version 1
(index 0) and yields a 128-bit stream, the version-1-M data-bit
budget. -/
theorem encode_length_matches_data_bits_witness :
    ((encode [] ECL.M Mode.Byte).getD []).length = data_bits 0 ECL.M :=
  encode_length_matches_data_bits [] ECL.M Mode.Byte 0
    ((modeEncode Mode.Byte [] (cci_bits 0 Mode.Byte)).getD [])
    ((encode [] ECL.M Mode.Byte).getD [])
    (by decide) (by decide) (by decide) (by decide)

/-- C2 (code bug): `add_terminator` computes `bs.len() - data_bits`
(operands reversed), so for a 6-bit stream and an 8-bit budget the
wrapped difference clamps to 4 and four zero bits are appended: the
result has 10 bits, not the 8 = 6 + min(4, 8 − 6) the claim requires,
and it exceeds the budget. -/
theorem add_terminator_reversed_subtraction :
    (add_terminator (List.replicate 6 false) 8).length = 10 ∧
    (List.replicate 6 false : List Bool).length +
      min 4 (8 - (List.replicate 6 false : List Bool).length) = 8 ∧
    ¬((add_terminator (List.replicate 6 false) 8).length ≤ 8) := by
  decide

/-- C3 (code bug): `encode_numeric` picks the group width from the
group's value, not its digit count — the full 3-digit group `"007"`
(value 7) is emitted in 4 bits, so the whole stream for input `"007"`
with a 10-bit length field is 18 bits, not the 4 + 10 + 10 = 24 the
claim requires. -/
theorem encode_numeric_width_by_value :
    encode_numeric [48, 48, 55] 10 =
      some [false, false, false, true,
            false, false, false, false, false, false, false, false, true, true,
            false, true, true, true] ∧
    (encode_numeric [48, 48, 55] 10).map List.length = some 18 ∧
    (18 : Nat) ≠ 4 + 10 + 10 := by
  decide

/-- C4 (counterexample): at version 1 (index 0), level L, the group sum
is 1 × 19 = 19 = `data_codewords`, while the claim's right-hand side is
19 + 8 × 1 = 27 (or 19 + 7 × 1 = 26 reading the polynomial length as
one more than the error-correction codeword count). -/
theorem ecc_to_groups_sum_counterexample :
    (ecc_to_groups ECL.L 0).1.1 * (ecc_to_groups ECL.L 0).1.2 +
      (ecc_to_groups ECL.L 0).2.1 * (ecc_to_groups ECL.L 0).2.2 = 19 ∧
    data_codewords 0 ECL.L +
      (get_polynomial 0 ECL.L).length *
        ((ecc_to_groups ECL.L 0).1.1 + (ecc_to_groups ECL.L 0).2.1) = 27 ∧
    data_codewords 0 ECL.L +
      ((get_polynomial 0 ECL.L).length - 1) *
        ((ecc_to_groups ECL.L 0).1.1 + (ecc_to_groups ECL.L 0).2.1) = 26 ∧
    (19 : Nat) ≠ 27 ∧ (19 : Nat) ≠ 26 := by
  decide

/-- C4 (amended): for every version and level, the sum over the two
groups of block count × per-block size equals `data_codewords` exactly —
the group sizes are per-block data codeword counts and do not include
the error-correction codewords. -/
theorem ecc_to_groups_sum_eq_data_codewords :
    ∀ (v : Version) (e : ECL),
      (ecc_to_groups e v).1.1 * (ecc_to_groups e v).1.2 +
        (ecc_to_groups e v).2.1 * (ecc_to_groups e v).2.2 =
      data_codewords v e := by
  decide

/-- C5 (code bug): the stream `encode_numeric` produces for `"007"`
cannot be decoded back by the QR-rules decoder — the full 3-digit group
was emitted in 4 bits, the decoder expects 10, and decoding fails
instead of recovering `"007"`. -/
theorem decode_numeric_round_trip_failure :
    (encode_numeric [48, 48, 55] 10).isSome = true ∧
    decode_numeric 10 ((encode_numeric [48, 48, 55] 10).getD []) = none ∧
    (none : Option (List Nat)) ≠ some [48, 48, 55] := by
  decide

/-- C6 (counterexample): the lowercase byte `'a'` (97) is outside the
spec's alphanumeric set, yet `best_encoding` classifies `"a"` as
Alphanumeric, not Byte — the code's `is_qr_alphanumeric` also accepts
`a-z`. -/
theorem best_encoding_lowercase_counterexample :
    best_encoding [97] = Mode.Alphanumeric ∧
    Mode.Alphanumeric ≠ Mode.Byte := by
  decide

/-- C6 (amended): for every input containing at least one byte outside
the code's alphanumeric set (digits, `A-Z`, `a-z`, space and the nine
symbols), `best_encoding` returns Byte. -/
theorem best_encoding_byte_of_invalid (input : List Nat)
    (h : ∃ c, c ∈ input ∧ is_qr_alphanumeric c = false) :
    best_encoding input = Mode.Byte :=
  try_encode_numeric_byte input h

/-- Witness for the amended C6: `"!"` (byte 33) is outside even the
code's set and is classified Byte. -/
theorem best_encoding_byte_of_invalid_witness :
    best_encoding [33] = Mode.Byte :=
  best_encoding_byte_of_invalid [33] ⟨33, by decide, by decide⟩

/-- C7: `encode` returns `none` exactly when the version resolver
returns `none`, and each mode encoder returns `some` for every input
and character-count-indicator width. -/
theorem encode_none_iff_version_none :
    ∀ (input : List Nat) (ecl : ECL) (mode : Mode),
      (encode input ecl mode = none ↔
        VersionGet mode ecl input.length = none) ∧
      (∀ cci : Nat, modeEncode mode input cci ≠ none) := by
  intro input ecl mode
  constructor
  · cases hV : VersionGet mode ecl input.length with
    | none => simp [encode, hV]
    | some v =>
        obtain ⟨bs0, h0⟩ := Option.isSome_iff_exists.mp
          (modeEncode_isSome mode input (cci_bits v mode))
        simp [encode, hV, h0]
  · intro cci hn
    have h := modeEncode_isSome mode input cci
    rw [hn] at h
    simp at h

/-- C8: the character-count-indicator widths follow the fixed
version-number thresholds — Numeric 14/12/10 at versions ≥27/≥10/else,
Alphanumeric 13/11/9, Byte 16 at version ≥10 else 8. -/
theorem cci_bits_thresholds :
    ∀ v : Version,
      cci_bits v Mode.Numeric =
        (if 27 ≤ v.val + 1 then 14 else if 10 ≤ v.val + 1 then 12 else 10) ∧
      cci_bits v Mode.Alphanumeric =
        (if 27 ≤ v.val + 1 then 13 else if 10 ≤ v.val + 1 then 11 else 9) ∧
      cci_bits v Mode.Byte = (if 10 ≤ v.val + 1 then 16 else 8) := by
  decide

/-- C9: over every packed byte, `set` makes the colour bit equal its
argument, `toggle` negates it, and both leave the role bits (bits ≥ 1)
— hence `module_type` — unchanged. -/
theorem module_set_toggle_preserve_role :
    ∀ (m : Fin 256) (b : Bool),
      module_value (module_set m.val b) = b ∧
      module_value (module_toggle m.val) = !module_value m.val ∧
      module_set m.val b >>> 1 = m.val >>> 1 ∧
      module_toggle m.val >>> 1 = m.val >>> 1 ∧
      module_type (module_set m.val b) = module_type m.val ∧
      module_type (module_toggle m.val) = module_type m.val := by
  decide

/-- C10: `encode_alphanumeric` returns `some` for every input and
width; a byte outside the alphanumeric set maps to the sentinel
`usize::MAX`, and for such a trailing byte the six low bits of the
sentinel (all ones) are emitted into the stream. -/
theorem encode_alphanumeric_total_and_sentinel :
    (∀ (input : List Nat) (cci : Nat),
      (encode_alphanumeric input cci).isSome = true) ∧
    (∀ c : Nat, is_qr_alphanumeric c = false →
      ascii_to_alphanumeric c = USIZE - 1) ∧
    encode_alphanumeric [33] 9 =
      some ([false, false, true, false] ++ natToBitsBE 9 1 ++
        List.replicate 6 true) := by
  refine ⟨fun input cci => by simp [encode_alphanumeric], fun c h => ?_, by decide⟩
  by_cases hc : c < 123
  · exact (by decide :
      ∀ x : Fin 123, is_qr_alphanumeric x.val = false →
        ascii_to_alphanumeric x.val = USIZE - 1) ⟨c, hc⟩ h
  · push_neg at hc
    unfold ascii_to_alphanumeric
    repeat rw [if_neg (by omega)]

/-- Witness for C10: byte `'!'` (33) is not alphanumeric and maps to
the sentinel `usize::MAX`. -/
theorem encode_alphanumeric_sentinel_witness :
    is_qr_alphanumeric 33 = false ∧ ascii_to_alphanumeric 33 = USIZE - 1 :=
  ⟨by decide, encode_alphanumeric_total_and_sentinel.2.1 33 (by decide)⟩

end FastQR
